import Mathlib

/-!
Verification of `mtag/rag-prep.py`, a post-upload media normalization and
archival pipeline.  The Python source is shallowly embedded: pure string
manipulations become Lean functions on `String` / `List Char`, the
filesystem effects of the remux / split / rename / sync stages become
explicit state passing over a list of existing paths, and the success or
failure of an external `ffmpeg` / `rclone` invocation becomes a Boolean
oracle parameter.  All definitions are translated from the source; the
theorems at the end of the file settle the specification claims.
-/

namespace RagPrep

/-! ## Character helpers

Python regex classes over ASCII input: `\w` is alphanumeric or underscore,
`.` is any character except a newline. -/

def isWordChar (c : Char) : Bool := c.isAlphanum || c = '_'

def isWordDash (c : Char) : Bool := isWordChar c || c = '-'

def isDotAny (c : Char) : Bool := c != '\n'

def lbrace : Char := Char.ofNat 123

def rbrace : Char := Char.ofNat 125

/-- `s.split(sep)[-1]` on a character list: everything after the last
occurrence of `sep` (the whole list when `sep` does not occur). -/
def afterLastChar (sep : Char) (cs : List Char) : List Char :=
  (cs.reverse.takeWhile (fun c => c != sep)).reverse

/-- Index of the first occurrence of `pat` as a contiguous sublist of
`hay` (Python `str.find` / the anchor point of `str.split(pat)`). -/
def findSub (hay pat : List Char) : Option Nat :=
  match hay with
  | [] => if pat.isEmpty then some 0 else none
  | _ :: t => if pat.isPrefixOf hay then some 0 else (findSub t pat).map (· + 1)

/-- Python `pat in hay`. -/
def containsSub (hay pat : List Char) : Bool := (findSub hay pat).isSome

/-- Everything after the first occurrence of `pat`
(`hay.split(pat)[1] ++ pat ++ hay.split(pat)[2] ++ ...`). -/
def afterFirstSub (hay pat : List Char) : Option (List Char) :=
  (findSub hay pat).map (fun i => hay.drop (i + pat.length))

/-- Everything before the first occurrence of `pat`
(`hay.split(pat)[0]`; the whole list when `pat` does not occur). -/
def upToFirstSub (hay pat : List Char) : List Char :=
  match findSub hay pat with
  | some i => hay.take i
  | none => hay

/-! ## Upload-date normalization

`esdoc_from_infojson` (and identically `esdoc_from_ffprobe`) normalizes
the upload date with `re.search(r"^(....)-?(..)-?(..)", uploaded)` and, on
a match, rebuilds the string as three dash-separated groups.  The regex is
anchored; each group is a fixed run of `.` wildcards; the two optional
dashes are tried greedily with backtracking, i.e. in the order
(yes,yes), (yes,no), (no,yes), (no,no). -/

/-- Consume exactly `n` regex-`.` characters (any character except a
newline), returning the consumed run and the remainder. -/
def anyN (cs : List Char) (n : Nat) : Option (List Char × List Char) :=
  match n, cs with
  | 0, cs => some ([], cs)
  | n + 1, c :: cs =>
    if c = '\n' then none
    else (anyN cs n).map (fun p => (c :: p.1, p.2))
  | _ + 1, [] => none

/-- Consume a literal dash when `want` is true, nothing otherwise. -/
def dashOpt (cs : List Char) (want : Bool) : Option (List Char) :=
  if want then
    match cs with
    | c :: rest => if c = '-' then some rest else none
    | [] => none
  else some cs

/-- One backtracking alternative of `^(....)-?(..)-?(..)` with the two
optional dashes fixed to `d1`, `d2`. -/
def tryDate (cs : List Char) (d1 d2 : Bool) :
    Option (List Char × List Char × List Char) := do
  let (y, r1) ← anyN cs 4
  let r2 ← dashOpt r1 d1
  let (mo, r3) ← anyN r2 2
  let r4 ← dashOpt r3 d2
  let (dd, _) ← anyN r4 2
  pure (y, mo, dd)

/-- The anchored match of `^(....)-?(..)-?(..)`, alternatives in greedy
backtracking order. -/
def dateMatch (cs : List Char) : Option (List Char × List Char × List Char) :=
  (tryDate cs true true).orElse fun _ =>
    (tryDate cs true false).orElse fun _ =>
      (tryDate cs false true).orElse fun _ =>
        tryDate cs false false

/-- The date normalization applied to `upload_date`: on a regex match the
three groups joined with dashes, otherwise the input unchanged. -/
def normDate (s : String) : String :=
  match dateMatch s.data with
  | some (y, mo, d) => String.mk (y ++ '-' :: (mo ++ '-' :: d))
  | none => s

/-! ## Identifier resolution

`main` resolves the 11-character content identifier `yi` from, in order:
the `comment` metadata field (a `youtube.com/watch?v=` URL), the parent
directory name (`^[\w-]{11}-[0-9]{13}$`), and the file name
(`[\[({}]([\w-]{11})[\])}][^\]\[(){}]+$`), first non-empty hit winning. -/

/-- `cmt.split("v=")[1].split("&")[0]` guarded by
`"youtube.com/watch?v=" in cmt`: the text after the first `v=`, cut at
the next `v=` and at the first `&`. -/
def commentId (cmt : String) : Option String :=
  if containsSub cmt.data "youtube.com/watch?v=".data then
    match afterFirstSub cmt.data ['v', '='] with
    | some rest =>
      some (String.mk (upToFirstSub (upToFirstSub rest ['v', '=']) ['&']))
    | none => none
  else none

/-- The directory-name convention `^[\w-]{11}-[0-9]{13}$`. -/
def matchSubdir (s : String) : Bool :=
  decide (s.data.length = 25) && (s.data.take 11).all isWordDash &&
    decide (s.data.get? 11 = some '-') && (s.data.drop 12).all Char.isDigit

/-- The token taken on a directory-convention match: `subdir[:11]`. -/
def subdirToken (s : String) : String := String.mk (s.data.take 11)

def isOpenBr (c : Char) : Bool := c = '[' || c = '(' || c = lbrace || c = rbrace

def isCloseBr (c : Char) : Bool := c = ']' || c = ')' || c = rbrace

def isAnyBr (c : Char) : Bool :=
  c = ']' || c = '[' || c = '(' || c = ')' || c = lbrace || c = rbrace

/-- Try `[\[({}]([\w-]{11})[\])}][^\]\[(){}]+$` at the head of `cs`,
returning the bracketed group. -/
def fnameMatchAt (cs : List Char) : Option (List Char) :=
  match cs with
  | [] => none
  | c :: rest =>
    if isOpenBr c then
      let tok := rest.take 11
      if decide (tok.length = 11) && tok.all isWordDash then
        match rest.drop 11 with
        | [] => none
        | c2 :: rest3 =>
          if isCloseBr c2 && decide (rest3.length ≥ 1) &&
              rest3.all (fun x => !isAnyBr x) then
            some tok
          else none
      else none
    else none

/-- `re.search` of the file-name pattern: leftmost starting position. -/
def fnameSearch (cs : List Char) : Option (List Char) :=
  match cs with
  | [] => none
  | _ :: t =>
    match fnameMatchAt cs with
    | some tok => some tok
    | none => fnameSearch t

def filenameId (s : String) : Option String := (fnameSearch s.data).map String.mk

/-- Which of the three sources produced the identifier. -/
inductive IdSource
  | comment
  | subdir
  | filename
deriving DecidableEq, Repr

/-- Resolution when the comment did not produce a (non-empty) id:
directory convention first, then file name. -/
def resolveRest (subdirName vidFp : String) : Option (String × IdSource) :=
  if matchSubdir subdirName then some (subdirToken subdirName, IdSource.subdir)
  else
    match filenameId vidFp with
    | some yi => some (yi, IdSource.filename)
    | none => none

/-- The full resolution order of `main`: comment, then directory, then
file name; `yi` starts as the empty string and a later source is
consulted only while `yi` is still empty. -/
def resolveId (cmt subdirName vidFp : String) : Option (String × IdSource) :=
  match commentId cmt with
  | some yi =>
    if yi = "" then resolveRest subdirName vidFp else some (yi, IdSource.comment)
  | none => resolveRest subdirName vidFp

/-! ## Early phase of `main`

Everything from the `.processed` short-circuit up to the conditional
upload (`vidchk`) gate, modelled as a trace of filesystem writes plus an
outcome.  Which lock-pool marker files get opened before one is acquired
depends on inter-process contention, so the sequence of tried lock paths
is an input of the run environment. -/

/-- A filesystem write performed by the pipeline. -/
inductive FsOp
  | lockMarker (path : String)
  | createSalt (content : String)
  | createFlag
  | renameFile (src dst : String)
  | createFile (path : String)
  | deleteFile (path : String)
deriving DecidableEq, Repr

/-- Writes that touch upload content: renames, creations and deletions of
media or sibling files (as opposed to the lock markers, the salt file and
the `.processed` flag). -/
def FsOp.isContentMutation : FsOp → Bool
  | .renameFile _ _ => true
  | .createFile _ => true
  | .deleteFile _ => true
  | _ => false

/-- Structured events posted to the notification webhook. -/
inductive Notif
  | vidchkFail
  | rcloneFail
  | success
deriving DecidableEq, Repr

/-- How the early phase ends. -/
inductive Outcome
  | alreadyProcessed
  | noId
  | quarantined (yi : String)
  | proceed (yi : String)
deriving DecidableEq, Repr

/-- The run environment: everything `main` reads before the format
stage.  `lockAttempts` is the contention-determined sequence of lock
marker paths opened by the lock loop; `freshSalt` models
`base64.b64encode(os.urandom(32))[:24]`. -/
structure RunEnv where
  flagExists : Bool
  comment : String
  upIp : Option String
  guestbook : String → Option String
  saltFile : Option String
  freshSalt : String
  vidchk : Option String
  subdirName : String
  vidFp : String
  lockAttempts : List String

/-- The writes of the uploader-identity block: the salt file is created
exactly when a requester address is present, has no guestbook entry, and
no salt file exists yet. -/
def saltOps (env : RunEnv) : List FsOp :=
  match env.upIp with
  | none => []
  | some ip =>
    match env.guestbook ip with
    | some _ => []
    | none =>
      match env.saltFile with
      | some _ => []
      | none => [FsOp.createSalt env.freshSalt]

/-- The `.processed` flag write: inside the directory-convention branch,
performed whenever the parent directory name matches, independently of
whether `yi` was already set by the comment. -/
def flagOps (env : RunEnv) : List FsOp :=
  if matchSubdir env.subdirName then [FsOp.createFlag] else []

/-- `CONDITIONAL_UPLOAD` constant of the source. -/
def conditionalUpload : Bool := true

structure EarlyResult where
  ops : List FsOp
  notifs : List Notif
  outcome : Outcome
deriving DecidableEq, Repr

/-- All filesystem writes performed before (and at) the quarantine gate:
the opened lock markers, then possibly the salt file, then possibly the
flag, in program order. -/
def earlyOps (env : RunEnv) : List FsOp :=
  env.lockAttempts.map FsOp.lockMarker ++ saltOps env ++ flagOps env

/-- The early phase of `main`: `.processed` short-circuit, idle wait and
lock acquisition, uploader-identity block, identifier resolution (writing
the flag when the directory convention matches), then the `vidchk`
quarantine gate. -/
def earlyPhase (env : RunEnv) : EarlyResult :=
  if env.flagExists then ⟨[], [], Outcome.alreadyProcessed⟩
  else
    match resolveId env.comment env.subdirName env.vidFp with
    | none => ⟨earlyOps env, [], Outcome.noId⟩
    | some (yi, _) =>
      if conditionalUpload && env.vidchk != some "ok" then
        ⟨earlyOps env, [Notif.vidchkFail], Outcome.quarantined yi⟩
      else ⟨earlyOps env, [], Outcome.proceed yi⟩

/-- The rest of the pipeline (probe, normalize, thumbnail, metadata,
upload) runs only when the early phase fell through every gate. -/
def runsFormatStage (env : RunEnv) : Bool :=
  match (earlyPhase env).outcome with
  | Outcome.proceed _ => true
  | _ => false

/-! ## Remux / split fallback chain

`fmtconv` writes to a `mux-` temp file, renaming it onto the target on
success and unlinking it on failure; `main` drives the nested loops
`for no_att in ["", "-map -0:t"]: for ext in [".mp4", ".webm"]:`, breaking
out of both on the first success, unlinking the (never-created) target on
each failure, and falling back to `fmtsplit` when every remux failed.
The filesystem is a list of existing paths; each `ffmpeg` invocation is
assumed to create its output file (possibly partially) whether or not it
succeeds, with success given by an oracle. -/

/-- The set of files currently on disk. -/
abbrev Fs := List String

/-- `os.path.join(a, "mux-" + b)` for `(a, b) = os.path.split(fpo)`. -/
def muxTemp (fpo : String) : String :=
  let rev := fpo.data.reverse
  let base := (rev.takeWhile (fun c => c != '/')).reverse
  let dirSlash := (rev.dropWhile (fun c => c != '/')).reverse
  String.mk (dirSlash ++ ("mux-".data ++ base))

/-- `fmtconv`: run `ffmpeg` into the temp path; on success rename the
temp onto `fpo`, on failure unlink the temp.  Returns success and the new
filesystem. -/
def fmtconv (ok : Bool) (fpo : String) (fs : Fs) : Bool × Fs :=
  let tfpo := muxTemp fpo
  let fs1 := tfpo :: fs
  if ok then (true, fpo :: fs1.erase tfpo)
  else (false, fs1.erase tfpo)

/-- The inner `for ext in [".mp4", ".webm"]` loop body of `main`:
attempt `fmtconv` into `vid_fp + ext`; on failure unlink the target and
continue, on success append it to `ups` and break. -/
def tryExts (okf : String → String → Bool) (noAtt vidFp : String)
    (fs : Fs) (ups : List String) (attempts : List (String × String)) :
    List String → Bool × Fs × List String × List (String × String)
  | [] => (false, fs, ups, attempts)
  | ext :: rest =>
    let fp2 := vidFp ++ ext
    let (succ, fs1) := fmtconv (okf noAtt ext) fp2 fs
    let attempts1 := attempts ++ [(noAtt, ext)]
    if succ then (true, fs1, ups ++ [fp2], attempts1)
    else tryExts okf noAtt vidFp (fs1.erase fp2) ups attempts1 rest

/-- `for ext in [".mp4", ".webm"]` of the source. -/
def extChoices : List String := [".mp4", ".webm"]

/-- `for no_att in ["", "-map -0:t"]` of the source. -/
def noAttChoices : List String := ["", "-map -0:t"]

/-- The outer `for no_att in ...` loop, breaking on success. -/
def tryNoAtts (okf : String → String → Bool) (vidFp : String)
    (fs : Fs) (ups : List String) (attempts : List (String × String)) :
    List String → Bool × Fs × List String × List (String × String)
  | [] => (false, fs, ups, attempts)
  | na :: rest =>
    let (succ, fs1, ups1, at1) := tryExts okf na vidFp fs ups attempts extChoices
    if succ then (true, fs1, ups1, at1)
    else tryNoAtts okf vidFp fs1 ups1 at1 rest

/-- The split targets chosen by `main` from the source codecs:
`vid_fp + ".v." + vf` and `vid_fp + ".a." + af`. -/
def splitTargets (vidFp : String) (vc ac : Option String) : String × String :=
  let vf := if vc = some "vp8" then "webm" else "mp4"
  let af := if ac = some "vorbis" || ac = some "opus" then "ogg" else "m4a"
  (vidFp ++ ".v." ++ vf, vidFp ++ ".a." ++ af)

/-- `fmtsplit`: one `ffmpeg` run per stream, audio first, returning at
the first failure; each run leaves its output file behind. -/
def fmtsplit (okA okV : Bool) (fpv fpa : String) (fs : Fs) : Bool × Fs :=
  let fs1 := fpa :: fs
  if !okA then (false, fs1)
  else
    let fs2 := fpv :: fs1
    if !okV then (false, fs2) else (true, fs2)

/-- The split block of `main`: on failure unlink both targets
(`for fp2 in [fpv, fpa]: os.unlink(fp2)`), on success extend `ups`. -/
def splitStage (okA okV : Bool) (vidFp : String) (vc ac : Option String)
    (fs : Fs) (ups : List String) : Fs × List String :=
  let fpv := (splitTargets vidFp vc ac).1
  let fpa := (splitTargets vidFp vc ac).2
  let r := fmtsplit okA okV fpv fpa fs
  if r.1 then (r.2, ups ++ [fpv, fpa])
  else ((r.2.erase fpv).erase fpa, ups)

structure RemuxResult where
  remuxOk : Bool
  fs : Fs
  ups : List String
  attempts : List (String × String)
  splitTried : Bool
deriving DecidableEq, Repr

/-- The whole `if need_remux:` block of `main`: the nested remux loops,
then the split fallback exactly when no remux attempt succeeded. -/
def remuxBlock (okf : String → String → Bool) (okA okV : Bool)
    (vidFp : String) (vc ac : Option String) (fs : Fs) (ups : List String) :
    RemuxResult :=
  let r := tryNoAtts okf vidFp fs ups [] noAttChoices
  if r.1 then ⟨true, r.2.1, r.2.2.1, r.2.2.2, false⟩
  else
    let s := splitStage okA okV vidFp vc ac r.2.1 r.2.2.1
    ⟨false, s.1, s.2, r.2.2.2, true⟩

/-- The order in which the source code attempts the four remux variants:
both containers with attachments first, then both without. -/
def codeRemuxOrder : List (String × String) :=
  [("", ".mp4"), ("", ".webm"), ("-map -0:t", ".mp4"), ("-map -0:t", ".webm")]

/-- The attempt order asserted by the specification: `.mp4` with and then
without attachments, then `.webm` with and then without. -/
def specRemuxOrder : List (String × String) :=
  [("", ".mp4"), ("-map -0:t", ".mp4"), ("", ".webm"), ("-map -0:t", ".webm")]

/-- Index of the first successful attempt under oracle `okf`. -/
def firstSuccess (okf : String → String → Bool)
    (l : List (String × String)) : Option Nat :=
  l.findIdx? (fun p => okf p.1 p.2)

/-! ## Whitelist filter and rename stage

`main` drops every collected file whose lower-cased name does not match
`\.(mp4|webm|mkv|flv|opus|ogg|mp3|m4a|aac|webp|jpg|png|chat.json|info.json)$`
(note the unescaped inner dots of `chat.json` / `info.json`: they are
regex wildcards), then renames the survivors to
`{yi}[.{yres}.{vc}].{ext}`. -/

def lowerStr (s : String) : String := String.mk (s.data.map Char.toLower)

/-- The twelve literal alternatives of the whitelist pattern. -/
def simpleAlts : List String :=
  ["mp4", "webm", "mkv", "flv", "opus", "ogg", "mp3", "m4a", "aac",
   "webp", "jpg", "png"]

/-- Suffix match for `\.chat.json$` / `\.info.json$` where the inner dot
is the regex wildcard: a literal dot, the word, any non-newline
character, then `json` at the end. -/
def wildJsonSuffix (word : List Char) (cs : List Char) : Bool :=
  match cs.reverse with
  | 'n' :: 'o' :: 's' :: 'j' :: c :: rest =>
    isDotAny c && (word.reverse ++ ['.']).isPrefixOf rest
  | _ => false

/-- `ptn.search(x.lower())` of the source. -/
def ptnMatch (x : String) : Bool :=
  let cs := (lowerStr x).data
  simpleAlts.any (fun alt => ('.' :: alt.data).isSuffixOf cs) ||
    wildJsonSuffix "chat".data cs || wildJsonSuffix "info".data cs

/-- `skips = [x for x in ups if not ptn.search(x.lower())]` followed by
`ups = [x for x in ups if x not in skips]`; returns (kept, skips). -/
def shipFilter (ups : List String) : List String × List String :=
  let skips := ups.filter (fun x => !ptnMatch x)
  (ups.filter (fun x => decide (x ∉ skips)), skips)

/-- The per-file extension classification of the rename loop: the
special two-part extensions by exact suffix, else everything after the
last dot. -/
def extOf (fp : String) : String :=
  if (".chat.json".data).isSuffixOf fp.data then "chat.json"
  else if (".info.json".data).isSuffixOf fp.data then "info.json"
  else String.mk (afterLastChar '.' fp.data)

/-- `"mp4|webm|mkv|flv".split("|")`. -/
def mediaExts : List String := ["mp4", "webm", "mkv", "flv"]

/-- `f"{md.get('vc')}"`: Python renders a missing key as `None`. -/
def optStr (o : Option String) : String :=
  match o with
  | some s => s
  | none => "None"

/-- `md.get("res", "").split("x")[-1]`. -/
def yresOf (res : Option String) : String :=
  String.mk (afterLastChar 'x' (match res with | some r => r | none => "").data)

/-- The final name `f"{yi}{suf}.{ext}"` computed for one file, where
`suf = f".{yres}.{vc}"` exactly for the four media container
extensions. -/
def finalName (yi : String) (res vc : Option String) (fp : String) : String :=
  let ext := extOf fp
  let suf :=
    if ext ∈ mediaExts then "." ++ yresOf res ++ "." ++ optStr vc else ""
  yi ++ suf ++ "." ++ ext

/-- The rename loop: every kept file is renamed to its final name and
`ups` is replaced by the list of final names. -/
def renameStage (yi : String) (res vc : Option String)
    (ups : List String) : List String :=
  ups.map (finalName yi res vc)

/-! ## Upload and cleanup stage

`main` writes the manifest, invokes `rclone copy`; on a nonzero exit it
appends the joined command line to `failed-rclones.sh`, posts the failure
webhook and exits with status 1; on success it posts the success webhook
and unlinks every shipped file. -/

/-- The `rclone` command line built by `main`. -/
def rcloneCmd (lst fdir dst : String) : List String :=
  ["rclone", "copy", "--files-from", lst, fdir, dst]

def joinSpace (l : List String) : String := String.intercalate " " l

/-- `os.path.join` for the simple case of a relative name under a
directory. -/
def pathJoin (dir fn : String) : String :=
  if dir = "" then fn else dir ++ "/" ++ fn

structure SyncResult where
  deleted : List String
  retryAppend : List String
  notifs : List Notif
  exitCode : Nat
deriving DecidableEq, Repr

/-- The tail of `main` after the `rclone` invocation returned `rc`. -/
def syncStage (rc : Nat) (ups : List String) (fdir : String)
    (cmd : List String) : SyncResult :=
  if rc ≠ 0 then ⟨[], [joinSpace cmd], [Notif.rcloneFail], 1⟩
  else ⟨ups.map (fun fn => pathJoin fdir fn), [], [Notif.success], 0⟩

/-! ## Uploader-identity derivation

`main` maps a requester address to a pseudonymous identity: a guestbook
hit is used as-is; otherwise the address is concatenated with the
persisted salt (created from `os.urandom` only when no salt file exists),
hashed with SHA-1, base64-encoded and truncated to 24 characters behind
an `ip:` tag.  SHA-1 (FIPS 180) and base64 (RFC 4648) are embedded
concretely over byte lists; machine words are `Nat` reduced mod `2^32`. -/

def w32 : Nat := 4294967296

def rotl (n x : Nat) : Nat := ((x <<< n) % w32) ||| (x >>> (32 - n))

def sha1f (t b c d : Nat) : Nat :=
  if t < 20 then (b &&& c) ||| ((4294967295 ^^^ b) &&& d)
  else if t < 40 then b ^^^ c ^^^ d
  else if t < 60 then (b &&& c) ||| (b &&& d) ||| (c &&& d)
  else b ^^^ c ^^^ d

def sha1k (t : Nat) : Nat :=
  if t < 20 then 0x5A827999
  else if t < 40 then 0x6ED9EBA1
  else if t < 60 then 0x8F1BBCDC
  else 0xCA62C1D6

/-- `n`-byte big-endian encoding of `v`. -/
def beBytes (n v : Nat) : List Nat :=
  match n with
  | 0 => []
  | n + 1 => beBytes n (v / 256) ++ [v % 256]

/-- Group bytes into big-endian 32-bit words. -/
def bytesToWords : List Nat → List Nat
  | b0 :: b1 :: b2 :: b3 :: rest =>
    (((b0 * 256 + b1) * 256 + b2) * 256 + b3) :: bytesToWords rest
  | _ => []

/-- SHA-1 message padding: a `0x80` byte, zeros up to 56 mod 64, then the
bit length as eight big-endian bytes. -/
def sha1Pad (msg : List Nat) : List Nat :=
  let l := msg.length
  let zeros := (119 - l % 64) % 64
  msg ++ 0x80 :: List.replicate zeros 0 ++ beBytes 8 (8 * l)

/-- Split into 64-byte blocks. -/
def chunks64 : List Nat → List (List Nat)
  | [] => []
  | b :: rest => (b :: rest).take 64 :: chunks64 (rest.drop 63)
termination_by bs => bs.length
decreasing_by simp [List.length_drop]; omega

/-- Extend the 16-word schedule by `k` further words. -/
def sha1Extend (w : List Nat) (k : Nat) : List Nat :=
  match k with
  | 0 => w
  | k + 1 =>
    let n := w.length
    let x := rotl 1 ((w.getD (n - 3) 0) ^^^ (w.getD (n - 8) 0) ^^^
      (w.getD (n - 14) 0) ^^^ (w.getD (n - 16) 0))
    sha1Extend (w ++ [x]) k

def sha1Round (st : Nat × Nat × Nat × Nat × Nat) (t wt : Nat) :
    Nat × Nat × Nat × Nat × Nat :=
  let (a, b, c, d, e) := st
  let tmp := (rotl 5 a + sha1f t b c d + e + wt + sha1k t) % w32
  (tmp, a, rotl 30 b, c, d)

/-- One SHA-1 block compression. -/
def sha1Compress (h : List Nat) (block : List Nat) : List Nat :=
  let w := sha1Extend block 64
  let h0 := h.getD 0 0
  let h1 := h.getD 1 0
  let h2 := h.getD 2 0
  let h3 := h.getD 3 0
  let h4 := h.getD 4 0
  let fin := (List.range 80).foldl
    (fun st t => sha1Round st t (w.getD t 0)) (h0, h1, h2, h3, h4)
  [(h0 + fin.1) % w32, (h1 + fin.2.1) % w32, (h2 + fin.2.2.1) % w32,
   (h3 + fin.2.2.2.1) % w32, (h4 + fin.2.2.2.2) % w32]

/-- SHA-1 of a byte list, as 20 bytes. -/
def sha1 (msg : List Nat) : List Nat :=
  let blocks := chunks64 (sha1Pad msg)
  let hf := blocks.foldl (fun h blk => sha1Compress h (bytesToWords blk))
    [0x67452301, 0xEFCDAB89, 0x98BADCFE, 0x10325476, 0xC3D2E1F0]
  (hf.map (beBytes 4)).flatten

def b64Alphabet : List Char :=
  "ABCDEFGHIJKLMNOPQRSTUVWXYZabcdefghijklmnopqrstuvwxyz0123456789+/".data

/-- RFC 4648 base64 of a byte list (as implemented by
`base64.b64encode`). -/
def b64encode : List Nat → List Char
  | b0 :: b1 :: b2 :: rest =>
    let n := (b0 * 256 + b1) * 256 + b2
    b64Alphabet.getD (n / 262144) 'A' :: b64Alphabet.getD (n / 4096 % 64) 'A' ::
      b64Alphabet.getD (n / 64 % 64) 'A' :: b64Alphabet.getD (n % 64) 'A' ::
        b64encode rest
  | [b0, b1] =>
    let n := (b0 * 256 + b1) * 256
    [b64Alphabet.getD (n / 262144) 'A', b64Alphabet.getD (n / 4096 % 64) 'A',
     b64Alphabet.getD (n / 64 % 64) 'A', '=']
  | [b0] =>
    let n := b0 * 65536
    [b64Alphabet.getD (n / 262144) 'A', b64Alphabet.getD (n / 4096 % 64) 'A',
     '=', '=']
  | [] => []

/-- ASCII bytes of a string (`str.encode("ascii")`). -/
def strBytes (s : String) : List Nat := s.data.map Char.toNat

/-- The identity block of `main`: guestbook hit wins; otherwise the salt
(from the salt file when present, else freshly generated) is appended to
the address and the identity is `"ip:"` plus the first 24 characters of
the base64-encoded SHA-1 digest. -/
def uploaderId (gb : String → Option String) (saltFile : Option String)
    (fresh : String) (ip : String) : String :=
  match gb ip with
  | some u => u
  | none =>
    let salt :=
      match saltFile with
      | some s => s
      | none => fresh
    "ip:" ++ String.mk ((b64encode (sha1 (strBytes (ip ++ salt)))).take 24)

/-! ## Helper lemmas -/

theorem dash_data : ("-" : String).data = ['-'] := rfl

theorem digit_ne_nl (c : Char) (h : c.isDigit = true) : c ≠ '\n' := by
  intro hc
  subst hc
  exact absurd h (by decide)

theorem digit_ne_dash (c : Char) (h : c.isDigit = true) : c ≠ '-' := by
  intro hc
  subst hc
  exact absurd h (by decide)

theorem list_len2 (l : List Char) (h : l.length = 2) : ∃ a b, l = [a, b] := by
  rcases l with _ | ⟨a, l⟩
  · simp at h
  rcases l with _ | ⟨b, l⟩
  · simp at h
  rcases l with _ | ⟨c, l⟩
  · exact ⟨a, b, rfl⟩
  · simp at h

/-- `anyN` consumes exactly a newline-free run of the requested
length. -/
theorem anyN_exact (u rest : List Char) (h : ∀ c ∈ u, c ≠ '\n') :
    anyN (u ++ rest) u.length = some (u, rest) := by
  induction u with
  | nil => simp [anyN]
  | cons c t ih =>
    simp only [List.cons_append, List.length_cons, anyN, List.append_eq]
    rw [if_neg (h c (by simp))]
    rw [ih (fun x hx => h x (by simp [hx]))]
    rfl

/-- C7: given a well-formed sidecar upload date (four digit characters of
year, two of month, two of day), the synthesized document's
`upload_date` is normalized to `YYYY-MM-DD` form whether or not the
source string used dash separators. -/
theorem upload_date_normalized (y mo d : String)
    (hy : y.length = 4) (hm : mo.length = 2) (hd : d.length = 2)
    (hyd : ∀ c ∈ y.data, c.isDigit = true)
    (hmd : ∀ c ∈ mo.data, c.isDigit = true)
    (hdd : ∀ c ∈ d.data, c.isDigit = true) :
    normDate (y ++ mo ++ d) = y ++ "-" ++ mo ++ "-" ++ d ∧
    normDate (y ++ "-" ++ mo ++ "-" ++ d) = y ++ "-" ++ mo ++ "-" ++ d := by
  obtain ⟨m1, m2, hmo⟩ := list_len2 mo.data hm
  obtain ⟨e1, e2, hde⟩ := list_len2 d.data hd
  have hm1 : m1.isDigit = true := hmd m1 (by rw [hmo]; simp)
  have hm2 : m2.isDigit = true := hmd m2 (by rw [hmo]; simp)
  have he1 : e1.isDigit = true := hdd e1 (by rw [hde]; simp)
  have he2 : e2.isDigit = true := hdd e2 (by rw [hde]; simp)
  have hynl : ∀ c ∈ y.data, c ≠ '\n' := fun c hc => digit_ne_nl c (hyd c hc)
  have hy4 : y.data.length = 4 := hy
  -- the separator-free input
  have hcs1 : (y ++ mo ++ d).data = y.data ++ (m1 :: m2 :: e1 :: e2 :: []) := by
    simp [String.data_append, hmo, hde]
  have h1a : anyN (y.data ++ (m1 :: m2 :: e1 :: e2 :: [])) 4 =
      some (y.data, m1 :: m2 :: e1 :: e2 :: []) := by
    have := anyN_exact y.data (m1 :: m2 :: e1 :: e2 :: []) hynl
    rwa [hy4] at this
  have h2a : anyN (m1 :: m2 :: e1 :: e2 :: []) 2 =
      some ([m1, m2], e1 :: e2 :: []) := by
    have := anyN_exact [m1, m2] (e1 :: e2 :: []) (by
      intro c hc
      simp at hc
      rcases hc with h | h
      · rw [h]; exact digit_ne_nl m1 hm1
      · rw [h]; exact digit_ne_nl m2 hm2)
    simpa using this
  have h3a : anyN (e1 :: e2 :: []) 2 = some ([e1, e2], []) := by
    have := anyN_exact [e1, e2] [] (by
      intro c hc
      simp at hc
      rcases hc with h | h
      · rw [h]; exact digit_ne_nl e1 he1
      · rw [h]; exact digit_ne_nl e2 he2)
    simpa using this
  -- the dash-separated input
  have hcs2 : (y ++ "-" ++ mo ++ "-" ++ d).data =
      y.data ++ ('-' :: m1 :: m2 :: '-' :: e1 :: e2 :: []) := by
    simp [String.data_append, dash_data, hmo, hde]
  have h1b : anyN (y.data ++ ('-' :: m1 :: m2 :: '-' :: e1 :: e2 :: [])) 4 =
      some (y.data, '-' :: m1 :: m2 :: '-' :: e1 :: e2 :: []) := by
    have := anyN_exact y.data ('-' :: m1 :: m2 :: '-' :: e1 :: e2 :: []) hynl
    rwa [hy4] at this
  have h2b : anyN (m1 :: m2 :: '-' :: e1 :: e2 :: []) 2 =
      some ([m1, m2], '-' :: e1 :: e2 :: []) := by
    have := anyN_exact [m1, m2] ('-' :: e1 :: e2 :: []) (by
      intro c hc
      simp at hc
      rcases hc with h | h
      · rw [h]; exact digit_ne_nl m1 hm1
      · rw [h]; exact digit_ne_nl m2 hm2)
    simpa using this
  constructor
  · -- no separators: only the (no-dash, no-dash) alternative matches
    have htt : tryDate (y.data ++ (m1 :: m2 :: e1 :: e2 :: [])) true true = none := by
      simp [tryDate, h1a, dashOpt, digit_ne_dash m1 hm1]
    have htf : tryDate (y.data ++ (m1 :: m2 :: e1 :: e2 :: [])) true false = none := by
      simp [tryDate, h1a, dashOpt, digit_ne_dash m1 hm1]
    have hft : tryDate (y.data ++ (m1 :: m2 :: e1 :: e2 :: [])) false true = none := by
      simp [tryDate, h1a, h2a, dashOpt, digit_ne_dash e1 he1]
    have hff : tryDate (y.data ++ (m1 :: m2 :: e1 :: e2 :: [])) false false =
        some (y.data, [m1, m2], [e1, e2]) := by
      simp [tryDate, h1a, h2a, h3a, dashOpt]
    apply String.ext
    rw [normDate, hcs1]
    simp [dateMatch, htt, htf, hft, hff, Option.orElse, hcs2]
  · -- separators present: the greedy (dash, dash) alternative matches
    have htt : tryDate (y.data ++ ('-' :: m1 :: m2 :: '-' :: e1 :: e2 :: []))
        true true = some (y.data, [m1, m2], [e1, e2]) := by
      simp [tryDate, h1b, h2b, h3a, dashOpt]
    apply String.ext
    rw [normDate, hcs2]
    simp [dateMatch, htt, Option.orElse, hcs2]

/-- Witness: `upload_date_normalized` applied to `2023`, `01`, `15`. -/
theorem upload_date_normalized_witness :
    normDate ("2023" ++ "01" ++ "15") = "2023" ++ "-" ++ "01" ++ "-" ++ "15" ∧
    normDate ("2023" ++ "-" ++ "01" ++ "-" ++ "15") =
      "2023" ++ "-" ++ "01" ++ "-" ++ "15" :=
  upload_date_normalized "2023" "01" "15" rfl rfl rfl
    (by decide) (by decide) (by decide)

/-- A token delivered by the file-name pattern is 11 word-or-dash
characters. -/
theorem fnameMatchAt_ok (cs tok : List Char) (h : fnameMatchAt cs = some tok) :
    tok.length = 11 ∧ tok.all isWordDash = true := by
  rcases cs with _ | ⟨c, rest⟩
  · simp [fnameMatchAt] at h
  · simp only [fnameMatchAt] at h
    split at h
    · split at h
      · split at h
        · exact absurd h (by simp)
        · split at h
          · obtain rfl : rest.take 11 = tok := by simpa using h
            simp_all
          · exact absurd h (by simp)
      · exact absurd h (by simp)
    · exact absurd h (by simp)

theorem fnameSearch_ok (cs tok : List Char) (h : fnameSearch cs = some tok) :
    tok.length = 11 ∧ tok.all isWordDash = true := by
  induction cs with
  | nil => simp [fnameSearch] at h
  | cons c t ih =>
    rw [fnameSearch] at h
    rcases hm : fnameMatchAt (c :: t) with _ | tok2
    · rw [hm] at h
      exact ih h
    · rw [hm] at h
      obtain rfl : tok2 = tok := by simpa using h
      exact fnameMatchAt_ok _ _ hm

/-- A token delivered by the directory convention is 11 word-or-dash
characters. -/
theorem subdirToken_ok (s : String) (h : matchSubdir s = true) :
    (subdirToken s).length = 11 ∧ (subdirToken s).data.all isWordDash = true := by
  unfold matchSubdir at h
  simp only [Bool.and_eq_true, decide_eq_true_eq] at h
  obtain ⟨⟨⟨h25, hall⟩, _⟩, _⟩ := h
  constructor
  · show (s.data.take 11).length = 11
    simp [List.length_take, h25]
  · simpa using hall

/-- The identifier actually resolved also has the announced source
shape: directory and file-name tokens are 11 word-or-dash characters. -/
theorem resolveRest_ok (sd fp yi : String) (src : IdSource)
    (h : resolveRest sd fp = some (yi, src)) :
    yi.length = 11 ∧ yi.data.all isWordDash = true := by
  unfold resolveRest at h
  split at h
  · rename_i hm
    obtain ⟨rfl, -⟩ : subdirToken sd = yi ∧ IdSource.subdir = src := by simpa using h
    exact subdirToken_ok sd hm
  · rcases hf : filenameId fp with _ | z
    · rw [hf] at h
      simp at h
    · rw [hf] at h
      obtain ⟨rfl, -⟩ : z = yi ∧ IdSource.filename = src := by simpa using h
      unfold filenameId at hf
      rcases hs : fnameSearch fp.data with _ | tok
      · rw [hs] at hf
        simp at hf
      · rw [hs] at hf
        obtain rfl : String.mk tok = z := by simpa using hf
        have := fnameSearch_ok fp.data tok hs
        exact ⟨this.1, by simpa using this.2⟩

/-- On a run that is not short-circuited, the early phase writes exactly
the lock markers, possibly the salt file, and possibly the flag —
whatever the outcome. -/
theorem earlyPhase_ops (env : RunEnv) (h : env.flagExists = false) :
    (earlyPhase env).ops = earlyOps env := by
  unfold earlyPhase
  rw [if_neg (by simp [h])]
  split
  · rfl
  · split
    · rfl
    · rfl

/-- The early-phase outcome hands over exactly the resolved identifier. -/
theorem earlyPhase_outcome (env : RunEnv) (h : env.flagExists = false) :
    (earlyPhase env).outcome =
      (match resolveId env.comment env.subdirName env.vidFp with
       | none => Outcome.noId
       | some (yi, _) =>
         if conditionalUpload && env.vidchk != some "ok" then
           Outcome.quarantined yi
         else Outcome.proceed yi) := by
  unfold earlyPhase
  rw [if_neg (by simp [h])]
  rcases hr : resolveId env.comment env.subdirName env.vidFp with _ | ⟨yi2, src2⟩
  · rfl
  · by_cases hc : (conditionalUpload && env.vidchk != some "ok") = true <;>
      simp [hc]

/-- C5 (amended): an identifier resolved from the directory or file-name
source is an 11-character token over word characters and dashes; the
comment source carries no such guarantee; and the identifier the early
phase hands to the rest of the run is exactly the resolved one (it never
changes). -/
theorem identifier_shape (env : RunEnv) (yi : String) (src : IdSource)
    (h : resolveId env.comment env.subdirName env.vidFp = some (yi, src)) :
    (src ≠ IdSource.comment →
      yi.length = 11 ∧ yi.data.all isWordDash = true) ∧
    (∀ z, (earlyPhase env).outcome = Outcome.proceed z ∨
        (earlyPhase env).outcome = Outcome.quarantined z → z = yi) := by
  constructor
  · intro hsrc
    unfold resolveId at h
    split at h
    · rename_i z _
      split at h
      · exact resolveRest_ok _ _ _ _ h
      · simp only [Option.some.injEq, Prod.mk.injEq] at h
        exact absurd h.2.symm hsrc
    · exact resolveRest_ok _ _ _ _ h
  · intro z hz
    by_cases hf : env.flagExists = true
    · unfold earlyPhase at hz
      rw [if_pos (by simp [hf])] at hz
      rcases hz with hz | hz <;> simp at hz
    · have ho := earlyPhase_outcome env (by simpa using hf)
      have ho2 : (earlyPhase env).outcome =
          (if conditionalUpload && env.vidchk != some "ok" then
            Outcome.quarantined yi
          else Outcome.proceed yi) := by rw [ho, h]
      rw [ho2] at hz
      by_cases hc : (conditionalUpload && env.vidchk != some "ok") = true
      · rw [if_pos hc] at hz
        rcases hz with hz | hz <;> simp_all
      · rw [if_neg hc] at hz
        rcases hz with hz | hz <;> simp_all

/-- Witness: `identifier_shape` on a directory-convention run. -/
theorem identifier_shape_witness :
    resolveId "" "AAAAAAAAAAA-1234567890123" "x" =
      some ("AAAAAAAAAAA", IdSource.subdir) ∧
    ((IdSource.subdir ≠ IdSource.comment →
        ("AAAAAAAAAAA" : String).length = 11 ∧
        ("AAAAAAAAAAA" : String).data.all isWordDash = true) ∧
     (∀ z, (earlyPhase ⟨false, "", none, fun _ => none, none, "",
          some "ok", "AAAAAAAAAAA-1234567890123", "x", []⟩).outcome =
            Outcome.proceed z ∨
          (earlyPhase ⟨false, "", none, fun _ => none, none, "",
          some "ok", "AAAAAAAAAAA-1234567890123", "x", []⟩).outcome =
            Outcome.quarantined z → z = "AAAAAAAAAAA")) :=
  ⟨by decide,
   identifier_shape ⟨false, "", none, fun _ => none, none, "",
     some "ok", "AAAAAAAAAAA-1234567890123", "x", []⟩
     "AAAAAAAAAAA" IdSource.subdir (by decide)⟩

/-- Counterexample to C5 as stated: a comment-resolved identifier is the
raw text between `v=` and the next `&`, which need not be 11 characters
(here it is 3). -/
theorem identifier_shape_cex :
    resolveId "youtube.com/watch?v=abc" "x" "x" =
      some ("abc", IdSource.comment) ∧
    ("abc" : String).length ≠ 11 := by
  constructor
  · decide
  · decide

/-- C4 (amended): on a run that is not short-circuited, the idempotency
flag is created exactly when the parent directory name matches the
naming convention — independently of which source resolved the
identifier.  In particular it is never created on a filename-resolved
run (possible only when the directory did not match), but it is created
on comment-resolved runs whose directory also matches. -/
theorem flag_creation (env : RunEnv) (h : env.flagExists = false) :
    (FsOp.createFlag ∈ (earlyPhase env).ops ↔
      matchSubdir env.subdirName = true) ∧
    (∀ yi, resolveId env.comment env.subdirName env.vidFp =
        some (yi, IdSource.filename) →
      FsOp.createFlag ∉ (earlyPhase env).ops) := by
  have hops := earlyPhase_ops env h
  have hmem : FsOp.createFlag ∈ (earlyPhase env).ops ↔
      matchSubdir env.subdirName = true := by
    rw [hops]
    unfold earlyOps flagOps saltOps
    constructor
    · intro hin
      by_contra hns
      rcases List.mem_append.1 hin with hin | hin
      · rcases List.mem_append.1 hin with hin | hin
        · obtain ⟨p, -, hp⟩ := List.mem_map.1 hin
          exact FsOp.noConfusion hp
        · split at hin <;> try simp_all
          · split at hin <;> try simp_all
            split at hin <;> simp_all
      · rw [if_neg hns] at hin
        simp at hin
    · intro hs
      rw [if_pos hs]
      simp
  refine ⟨hmem, ?_⟩
  intro yi hres
  rw [hmem]
  intro hs
  unfold resolveId at hres
  have hrest : resolveRest env.subdirName env.vidFp =
      some (yi, IdSource.filename) := by
    split at hres
    · split at hres
      · exact hres
      · simp at hres
    · exact hres
  unfold resolveRest at hrest
  rw [if_pos hs] at hrest
  simp at hrest

/-- Witness: `flag_creation` on a directory-convention run. -/
theorem flag_creation_witness :
    ((⟨false, "", none, fun _ => none, none, "", some "ok",
        "AAAAAAAAAAA-1234567890123", "x", []⟩ : RunEnv).flagExists = false) ∧
    ((FsOp.createFlag ∈ (earlyPhase ⟨false, "", none, fun _ => none, none, "",
        some "ok", "AAAAAAAAAAA-1234567890123", "x", []⟩).ops ↔
      matchSubdir "AAAAAAAAAAA-1234567890123" = true) ∧
     (∀ yi, resolveId "" "AAAAAAAAAAA-1234567890123" "x" =
        some (yi, IdSource.filename) →
      FsOp.createFlag ∉ (earlyPhase ⟨false, "", none, fun _ => none, none, "",
        some "ok", "AAAAAAAAAAA-1234567890123", "x", []⟩).ops)) :=
  ⟨rfl, flag_creation ⟨false, "", none, fun _ => none, none, "",
    some "ok", "AAAAAAAAAAA-1234567890123", "x", []⟩ rfl⟩

/-- Counterexample to C4 as stated: the comment resolves the identifier
(so the directory convention is not the resolving source), yet the flag
is still created because the directory name matches the convention. -/
theorem flag_creation_cex :
    resolveId "youtube.com/watch?v=dQw4w9WgXcQ" "AAAAAAAAAAA-1234567890123" "x" =
      some ("dQw4w9WgXcQ", IdSource.comment) ∧
    FsOp.createFlag ∈ (earlyPhase ⟨false, "youtube.com/watch?v=dQw4w9WgXcQ",
      none, fun _ => none, none, "", some "ok",
      "AAAAAAAAAAA-1234567890123", "x", []⟩).ops := by
  constructor
  · decide
  · decide

theorem earlyPhase_notifs (env : RunEnv) (h : env.flagExists = false) :
    (earlyPhase env).notifs =
      (match (earlyPhase env).outcome with
       | Outcome.quarantined _ => [Notif.vidchkFail]
       | _ => []) := by
  unfold earlyPhase
  rw [if_neg (by simp [h])]
  rcases hr : resolveId env.comment env.subdirName env.vidFp with _ | ⟨yi2, src2⟩
  · rfl
  · by_cases hc : (conditionalUpload && env.vidchk != some "ok") = true <;>
      simp [hc]

/-- C3 (amended): whenever the metadata bag carries a validation verdict
other than `"ok"` (and the run was not short-circuited earlier), the run
ends quarantined: the quarantine notification is emitted, none of the
later pipeline stages run, and no upload content has been created,
renamed or deleted — though the lock markers, the salt file, and (when
the directory matches the convention) the idempotency flag may already
have been written. -/
theorem quarantine_gate (env : RunEnv) (yi : String)
    (h : (earlyPhase env).outcome = Outcome.quarantined yi) :
    (earlyPhase env).notifs = [Notif.vidchkFail] ∧
    env.vidchk ≠ some "ok" ∧
    runsFormatStage env = false ∧
    (∀ op ∈ (earlyPhase env).ops, op.isContentMutation = false) := by
  have hff : env.flagExists = false := by
    by_contra hx
    have hxx : env.flagExists = true := by simpa using hx
    unfold earlyPhase at h
    rw [if_pos (by simp [hxx])] at h
    simp at h
  have hcond : (conditionalUpload && env.vidchk != some "ok") = true := by
    by_contra hc
    rw [earlyPhase_outcome env hff] at h
    split at h
    · simp at h
    · split at h
      · rename_i hg
        exact hc hg
      · simp at h
  refine ⟨?_, ?_, ?_, ?_⟩
  · rw [earlyPhase_notifs env hff, h]
  · intro hv
    rw [conditionalUpload] at hcond
    simp [hv] at hcond
  · simp [runsFormatStage, h]
  · intro op hop
    rw [earlyPhase_ops env hff] at hop
    unfold earlyOps at hop
    rcases List.mem_append.1 hop with h1 | h1
    · rcases List.mem_append.1 h1 with h2 | h2
      · obtain ⟨p, -, rfl⟩ := List.mem_map.1 h2
        rfl
      · unfold saltOps at h2
        split at h2
        · simp at h2
        · split at h2
          · simp at h2
          · split at h2
            · simp at h2
            · obtain rfl : op = FsOp.createSalt env.freshSalt := by simpa using h2
              rfl
    · unfold flagOps at h1
      split at h1
      · obtain rfl : op = FsOp.createFlag := by simpa using h1
        rfl
      · simp at h1

/-- Witness: `quarantine_gate` on a quarantined run. -/
theorem quarantine_gate_witness :
    (earlyPhase ⟨false, "", none, fun _ => none, none, "", some "bad",
        "AAAAAAAAAAA-1234567890123", "x", []⟩).outcome =
      Outcome.quarantined "AAAAAAAAAAA" ∧
    ((earlyPhase ⟨false, "", none, fun _ => none, none, "", some "bad",
        "AAAAAAAAAAA-1234567890123", "x", []⟩).notifs = [Notif.vidchkFail] ∧
     (⟨false, "", none, fun _ => none, none, "", some "bad",
        "AAAAAAAAAAA-1234567890123", "x", []⟩ : RunEnv).vidchk ≠ some "ok" ∧
     runsFormatStage ⟨false, "", none, fun _ => none, none, "", some "bad",
        "AAAAAAAAAAA-1234567890123", "x", []⟩ = false ∧
     (∀ op ∈ (earlyPhase ⟨false, "", none, fun _ => none, none, "", some "bad",
        "AAAAAAAAAAA-1234567890123", "x", []⟩).ops,
       op.isContentMutation = false)) :=
  ⟨by decide, quarantine_gate ⟨false, "", none, fun _ => none, none, "",
    some "bad", "AAAAAAAAAAA-1234567890123", "x", []⟩ "AAAAAAAAAAA" (by decide)⟩

/-- Counterexample to C3 as stated: a quarantined run that has already
created a file — the parent directory matches the naming convention, so
the `.processed` flag is written before the `vidchk` gate is even
consulted. -/
theorem quarantine_gate_cex :
    (earlyPhase ⟨false, "", none, fun _ => none, none, "", some "corrupt",
        "AAAAAAAAAAA-1234567890123", "x", []⟩).outcome =
      Outcome.quarantined "AAAAAAAAAAA" ∧
    FsOp.createFlag ∈ (earlyPhase ⟨false, "", none, fun _ => none, none, "",
      some "corrupt", "AAAAAAAAAAA-1234567890123", "x", []⟩).ops := by
  constructor
  · decide
  · decide

/-- C10: for a requester address with no guestbook entry, the derived
pseudonymous identity is a deterministic function of the persisted salt
file content — two runs reading the same salt derive the same identity,
namely `ip:` followed by the first 24 characters of the base64-encoded
SHA-1 digest of the address concatenated with the salt. -/
theorem uploader_identity (gb : String → Option String)
    (ip salt fresh1 fresh2 : String) (h : gb ip = none) :
    uploaderId gb (some salt) fresh1 ip = uploaderId gb (some salt) fresh2 ip ∧
    uploaderId gb (some salt) fresh1 ip =
      "ip:" ++ String.mk ((b64encode (sha1 (strBytes (ip ++ salt)))).take 24) := by
  unfold uploaderId
  rw [h]
  exact ⟨rfl, rfl⟩

/-- Witness: `uploader_identity` on a concrete address and salt. -/
theorem uploader_identity_witness :
    ((fun _ => (none : Option String)) "1.2.3.4" = none) ∧
    (uploaderId (fun _ => none) (some "SALT") "fresh1" "1.2.3.4" =
      uploaderId (fun _ => none) (some "SALT") "fresh2" "1.2.3.4" ∧
     uploaderId (fun _ => none) (some "SALT") "fresh1" "1.2.3.4" =
      "ip:" ++ String.mk ((b64encode (sha1 (strBytes ("1.2.3.4" ++ "SALT")))).take 24)) :=
  ⟨rfl, uploader_identity (fun _ => none) "1.2.3.4" "SALT" "fresh1" "fresh2" rfl⟩

/-- C8: when the remote sync exits nonzero, no shipped file is deleted,
the joined command line is appended to the retry queue, the failure
notification is emitted and the process exits with status 1; files are
deleted only on a zero exit. -/
theorem sync_failure (rc : Nat) (ups : List String) (fdir : String)
    (lst dst : String) (h : rc ≠ 0) :
    (syncStage rc ups fdir (rcloneCmd lst fdir dst)).deleted = [] ∧
    (syncStage rc ups fdir (rcloneCmd lst fdir dst)).retryAppend =
      [joinSpace (rcloneCmd lst fdir dst)] ∧
    (syncStage rc ups fdir (rcloneCmd lst fdir dst)).notifs =
      [Notif.rcloneFail] ∧
    (syncStage rc ups fdir (rcloneCmd lst fdir dst)).exitCode = 1 ∧
    (∀ rc2 : Nat,
      (syncStage rc2 ups fdir (rcloneCmd lst fdir dst)).deleted ≠ [] → rc2 = 0) := by
  unfold syncStage
  rw [if_pos h]
  refine ⟨rfl, rfl, rfl, rfl, ?_⟩
  intro rc2 h2
  by_contra hne
  rw [if_pos hne] at h2
  exact h2 rfl

/-- Witness: `sync_failure` at exit code 1. -/
theorem sync_failure_witness :
    ((1 : Nat) ≠ 0) ∧
    ((syncStage 1 ["a.mp4"] "/up/d" (rcloneCmd "/up/d/rclone.lst" "/up/d"
        "notmybox:AAAAAAAAAAA/")).deleted = [] ∧
     (syncStage 1 ["a.mp4"] "/up/d" (rcloneCmd "/up/d/rclone.lst" "/up/d"
        "notmybox:AAAAAAAAAAA/")).retryAppend =
      [joinSpace (rcloneCmd "/up/d/rclone.lst" "/up/d" "notmybox:AAAAAAAAAAA/")] ∧
     (syncStage 1 ["a.mp4"] "/up/d" (rcloneCmd "/up/d/rclone.lst" "/up/d"
        "notmybox:AAAAAAAAAAA/")).notifs = [Notif.rcloneFail] ∧
     (syncStage 1 ["a.mp4"] "/up/d" (rcloneCmd "/up/d/rclone.lst" "/up/d"
        "notmybox:AAAAAAAAAAA/")).exitCode = 1 ∧
     (∀ rc2 : Nat, (syncStage rc2 ["a.mp4"] "/up/d" (rcloneCmd "/up/d/rclone.lst"
        "/up/d" "notmybox:AAAAAAAAAAA/")).deleted ≠ [] → rc2 = 0)) :=
  ⟨by decide, sync_failure 1 ["a.mp4"] "/up/d" "/up/d/rclone.lst"
    "notmybox:AAAAAAAAAAA/" (by decide)⟩

/-- C1 (amended): when normalization is required the code attempts, in
order, remux to `.mp4` and then to `.webm` with attachment streams
included, and only then the same two containers with attachments
excluded; it stops at the first success, and falls back to the split
strategy exactly when all four attempts fail. -/
theorem remux_chain_order (okf : String → String → Bool) (okA okV : Bool)
    (vidFp : String) (vc ac : Option String) (fs : Fs) (ups : List String) :
    (remuxBlock okf okA okV vidFp vc ac fs ups).attempts =
      (match firstSuccess okf codeRemuxOrder with
       | some i => codeRemuxOrder.take (i + 1)
       | none => codeRemuxOrder) ∧
    (remuxBlock okf okA okV vidFp vc ac fs ups).remuxOk =
      (firstSuccess okf codeRemuxOrder).isSome ∧
    (remuxBlock okf okA okV vidFp vc ac fs ups).splitTried =
      !(firstSuccess okf codeRemuxOrder).isSome := by
  cases h1 : okf "" ".mp4" <;> cases h2 : okf "" ".webm" <;>
    cases h3 : okf "-map -0:t" ".mp4" <;> cases h4 : okf "-map -0:t" ".webm" <;>
      simp [remuxBlock, tryNoAtts, tryExts, extChoices, noAttChoices, fmtconv,
        firstSuccess, codeRemuxOrder, List.findIdx?, h1, h2, h3, h4]

/-- Counterexample to C1 as stated: with every attempt failing, the
actual attempt order interleaves the containers inside each
attachment-mode pass — the second attempt is `.webm` with attachments,
not the claimed `.mp4` retry without attachments. -/
theorem remux_chain_order_cex :
    (remuxBlock (fun _ _ => false) false false "/d/v.mkv" none none [] []).attempts =
      [("", ".mp4"), ("", ".webm"), ("-map -0:t", ".mp4"), ("-map -0:t", ".webm")] ∧
    [("", ".mp4"), ("", ".webm"), ("-map -0:t", ".mp4"), ("-map -0:t", ".webm")] ≠
      specRemuxOrder ∧
    (remuxBlock (fun na e => na = "" && e = ".webm") false false "/d/v.mkv"
        none none [] []).attempts = [("", ".mp4"), ("", ".webm")] := by
  refine ⟨by decide, by decide, by decide⟩

/-- The two split targets always differ (`.v.` versus `.a.` segment). -/
theorem splitTargets_ne (vidFp : String) (vc ac : Option String) :
    (splitTargets vidFp vc ac).1 ≠ (splitTargets vidFp vc ac).2 := by
  simp only [splitTargets]
  split_ifs <;> intro h <;>
  · have h2 := congrArg String.data h
    simp only [String.data_append, List.append_assoc] at h2
    rw [List.append_right_inj] at h2
    exact absurd h2 (by decide)

/-- C6: if every remux attempt fails, the remux loop leaves the
filesystem exactly as it found it (each failed attempt having removed
its temp and target paths) and control falls through to the split
strategy; a failed split likewise removes both of its outputs, while a
successful split leaves exactly the two split files. -/
theorem remux_cleanup (okf : String → String → Bool) (okA okV : Bool)
    (vidFp : String) (vc ac : Option String) (fs : Fs) (ups : List String)
    (hall : ∀ p ∈ codeRemuxOrder, okf p.1 p.2 = false)
    (hmp4 : vidFp ++ ".mp4" ∉ fs) (hwebm : vidFp ++ ".webm" ∉ fs)
    (hv : (splitTargets vidFp vc ac).1 ∉ fs) :
    tryNoAtts okf vidFp fs ups [] noAttChoices =
      (false, fs, ups, codeRemuxOrder) ∧
    (remuxBlock okf okA okV vidFp vc ac fs ups).splitTried = true ∧
    (okA = true → okV = true →
      (remuxBlock okf okA okV vidFp vc ac fs ups).fs =
        (splitTargets vidFp vc ac).1 :: (splitTargets vidFp vc ac).2 :: fs ∧
      (remuxBlock okf okA okV vidFp vc ac fs ups).ups =
        ups ++ [(splitTargets vidFp vc ac).1, (splitTargets vidFp vc ac).2]) ∧
    (okA = false ∨ okV = false →
      (remuxBlock okf okA okV vidFp vc ac fs ups).fs = fs ∧
      (remuxBlock okf okA okV vidFp vc ac fs ups).ups = ups) := by
  have h1 := hall ("", ".mp4") (by simp [codeRemuxOrder])
  have h2 := hall ("", ".webm") (by simp [codeRemuxOrder])
  have h3 := hall ("-map -0:t", ".mp4") (by simp [codeRemuxOrder])
  have h4 := hall ("-map -0:t", ".webm") (by simp [codeRemuxOrder])
  simp only at h1 h2 h3 h4
  have hne : (splitTargets vidFp vc ac).1 ≠ (splitTargets vidFp vc ac).2 :=
    splitTargets_ne vidFp vc ac
  have hne2 : ¬((splitTargets vidFp vc ac).2 ==
      (splitTargets vidFp vc ac).1) = true := by
    simpa [beq_iff_eq] using Ne.symm hne
  have htry : tryNoAtts okf vidFp fs ups [] noAttChoices =
      (false, fs, ups, codeRemuxOrder) := by
    simp [tryNoAtts, tryExts, extChoices, noAttChoices, fmtconv, h1, h2, h3, h4,
      List.erase_cons_head, List.erase_of_not_mem hmp4,
      List.erase_of_not_mem hwebm, codeRemuxOrder]
  refine ⟨htry, ?_, ?_, ?_⟩
  · simp [remuxBlock, htry]
  · intro hA hV
    subst hA
    subst hV
    simp [remuxBlock, htry, splitStage, fmtsplit]
  · intro hAV
    rcases hAV with hA | hV
    · subst hA
      constructor
      · simp [remuxBlock, htry, splitStage, fmtsplit]
        rw [List.erase_cons_tail hne2, List.erase_of_not_mem hv,
          List.erase_cons_head]
      · simp [remuxBlock, htry, splitStage, fmtsplit]
    · subst hV
      cases hA : okA
      · constructor
        · simp [remuxBlock, htry, splitStage, fmtsplit]
          rw [List.erase_cons_tail hne2, List.erase_of_not_mem hv,
            List.erase_cons_head]
        · simp [remuxBlock, htry, splitStage, fmtsplit]
      · constructor
        · simp [remuxBlock, htry, splitStage, fmtsplit, List.erase_cons_head]
        · simp [remuxBlock, htry, splitStage, fmtsplit]

/-- Witness: `remux_cleanup` with every attempt failing on a clean
directory. -/
theorem remux_cleanup_witness :
    ((∀ p ∈ codeRemuxOrder, (fun _ _ => false : String → String → Bool) p.1 p.2 = false) ∧
     ("/d/v.mkv" ++ ".mp4") ∉ ([] : Fs) ∧ ("/d/v.mkv" ++ ".webm") ∉ ([] : Fs) ∧
     (splitTargets "/d/v.mkv" none none).1 ∉ ([] : Fs)) ∧
    (tryNoAtts (fun _ _ => false) "/d/v.mkv" [] [] [] noAttChoices =
      (false, [], [], codeRemuxOrder) ∧
     (remuxBlock (fun _ _ => false) false false "/d/v.mkv" none none [] []).splitTried = true ∧
     (false = true → false = true →
      (remuxBlock (fun _ _ => false) false false "/d/v.mkv" none none [] []).fs =
        (splitTargets "/d/v.mkv" none none).1 :: (splitTargets "/d/v.mkv" none none).2 :: [] ∧
      (remuxBlock (fun _ _ => false) false false "/d/v.mkv" none none [] []).ups =
        [] ++ [(splitTargets "/d/v.mkv" none none).1, (splitTargets "/d/v.mkv" none none).2]) ∧
     (false = false ∨ false = false →
      (remuxBlock (fun _ _ => false) false false "/d/v.mkv" none none [] []).fs = [] ∧
      (remuxBlock (fun _ _ => false) false false "/d/v.mkv" none none [] []).ups = [])) :=
  ⟨⟨by decide, by decide, by decide, by decide⟩,
   remux_cleanup (fun _ _ => false) false false "/d/v.mkv" none none [] []
     (by decide) (by decide) (by decide) (by decide)⟩

theorem dot_data : ("." : String).data = ['.'] := rfl

/-- The double filter of the source (`skips` then `x not in skips`) is
the plain whitelist filter. -/
theorem shipFilter_eq (ups : List String) :
    (shipFilter ups).1 = ups.filter (fun x => ptnMatch x) ∧
    (shipFilter ups).2 = ups.filter (fun x => !ptnMatch x) := by
  unfold shipFilter
  refine ⟨?_, rfl⟩
  apply List.filter_congr
  intro x hx
  by_cases hp : ptnMatch x = true
  · simp [List.mem_filter, hp]
  · simp [List.mem_filter, hp, hx]

/-- The extension classification is one of the two special two-part
extensions or a dot-free final component. -/
theorem extOf_cases (fp : String) :
    extOf fp = "chat.json" ∨ extOf fp = "info.json" ∨
      '.' ∉ (extOf fp).data := by
  unfold extOf
  split_ifs
  · exact Or.inl rfl
  · exact Or.inr (Or.inl rfl)
  · refine Or.inr (Or.inr ?_)
    intro hdot
    have hmem : '.' ∈ fp.data.reverse.takeWhile (fun c => c != '.') := by
      have : '.' ∈ afterLastChar '.' fp.data := hdot
      unfold afterLastChar at this
      simpa using this
    have := List.mem_takeWhile_imp hmem
    simp at this

/-- A media container extension is dot-free. -/
theorem mediaExt_dotfree (e : String) (h : e ∈ mediaExts) : '.' ∉ e.data := by
  rcases (by simpa [mediaExts] using h : e = "mp4" ∨ e = "webm" ∨ e = "mkv" ∨
    e = "flv") with h | h | h | h <;> rw [h] <;> decide

/-- Splitting at the first dot of a dot-free-prefixed list is unique. -/
theorem dotfree_split : ∀ a c b d : List Char, '.' ∉ a → '.' ∉ c →
    a ++ '.' :: b = c ++ '.' :: d → a = c ∧ b = d := by
  intro a
  induction a with
  | nil =>
    intro c b d _ hc h
    cases c with
    | nil => simpa using h
    | cons y ys =>
      rw [List.nil_append, List.cons_append] at h
      injection h with h1 h2
      rw [← h1] at hc
      exact absurd (List.mem_cons_self _ _) (fun hh => hc hh)
  | cons x xs ih =>
    intro c b d ha hc h
    cases c with
    | nil =>
      rw [List.cons_append, List.nil_append] at h
      injection h with h1 h2
      rw [h1] at ha
      exact absurd (List.mem_cons_self _ _) (fun hh => ha hh)
    | cons y ys =>
      rw [List.cons_append, List.cons_append] at h
      injection h with h1 h2
      have ha2 : '.' ∉ xs := fun hm => ha (List.mem_cons_of_mem _ hm)
      have hc2 : '.' ∉ ys := fun hm => hc (List.mem_cons_of_mem _ hm)
      obtain ⟨e1, e2⟩ := ih ys b d ha2 hc2 h2
      exact ⟨by rw [h1, e1], e2⟩

/-- A media-suffixed final name (three extra dots) can never coincide
with a non-media one (at most two dots past the identifier). -/
theorem media_nonmedia_tail_ne (yi : String) (res vc : Option String)
    (fp1 fp2 : String)
    (hres : '.' ∉ (yresOf res).data) (hvc : '.' ∉ (optStr vc).data)
    (hm1 : extOf fp1 ∈ mediaExts) (hm2 : extOf fp2 ∉ mediaExts) :
    (finalName yi res vc fp1).data ≠ (finalName yi res vc fp2).data := by
  intro hd
  have he1 : '.' ∉ (extOf fp1).data := mediaExt_dotfree _ hm1
  simp [finalName, hm1, hm2, String.data_append, dot_data,
    List.append_assoc, List.append_right_inj] at hd
  have hcnt := congrArg (fun l => List.count '.' l) hd
  simp [List.count_cons, List.count_append, List.count_eq_zero.2 hres,
    List.count_eq_zero.2 hvc, List.count_eq_zero.2 he1] at hcnt
  rcases extOf_cases fp2 with h2 | h2 | h2
  · rw [h2] at hcnt
    simp [List.count_cons] at hcnt
  · rw [h2] at hcnt
    simp [List.count_cons] at hcnt
  · rw [List.count_eq_zero.2 h2] at hcnt
    simp at hcnt

/-- Two files with different extension classifications receive different
final names (the resolution/codec fields being dot-free). -/
theorem finalName_inj (yi : String) (res vc : Option String)
    (hres : '.' ∉ (yresOf res).data) (hvc : '.' ∉ (optStr vc).data)
    (fp1 fp2 : String) (hne : extOf fp1 ≠ extOf fp2) :
    finalName yi res vc fp1 ≠ finalName yi res vc fp2 := by
  intro h
  have hd := congrArg String.data h
  by_cases hm1 : extOf fp1 ∈ mediaExts
  · by_cases hm2 : extOf fp2 ∈ mediaExts
    · apply hne
      apply String.ext
      simp [finalName, hm1, hm2, String.data_append, dot_data,
        List.append_assoc, List.append_right_inj, List.cons.injEq] at hd
      exact hd
    · exact absurd hd (media_nonmedia_tail_ne yi res vc fp1 fp2 hres hvc hm1 hm2)
  · by_cases hm2 : extOf fp2 ∈ mediaExts
    · exact absurd hd.symm
        (media_nonmedia_tail_ne yi res vc fp2 fp1 hres hvc hm2 hm1)
    · apply hne
      apply String.ext
      simp [finalName, hm1, hm2, String.data_append, dot_data,
        List.append_right_inj, List.cons.injEq] at hd
      exact hd

/-- C2 (amended): after filtering, the kept entries are exactly those
matching the whitelist pattern and the skipped ones exactly those not
matching (skipped files are never shipped); final names are a function
of the extension classification alone, so entries with pairwise distinct
extension classes get pairwise distinct final names — but two entries
sharing an extension class collide (see the counterexample), so
duplicate-freedom holds only under that distinctness. -/
theorem rename_whitelist (yi : String) (res vc : Option String)
    (ups kept : List String) (fp1 fp2 : String)
    (hres : '.' ∉ (yresOf res).data) (hvc : '.' ∉ (optStr vc).data)
    (hne : extOf fp1 ≠ extOf fp2)
    (hk : (kept.map extOf).Nodup) :
    (shipFilter ups).1 = ups.filter (fun x => ptnMatch x) ∧
    (shipFilter ups).2 = ups.filter (fun x => !ptnMatch x) ∧
    (∀ fp ∈ (shipFilter ups).1, ptnMatch fp = true) ∧
    finalName yi res vc fp1 ≠ finalName yi res vc fp2 ∧
    (renameStage yi res vc kept).Nodup := by
  obtain ⟨hs1, hs2⟩ := shipFilter_eq ups
  refine ⟨hs1, hs2, ?_, finalName_inj yi res vc hres hvc fp1 fp2 hne, ?_⟩
  · intro fp hfp
    rw [hs1] at hfp
    exact (List.mem_filter.1 hfp).2
  · have h1 : List.Pairwise (fun a b => extOf a ≠ extOf b) kept :=
      (List.pairwise_map).1 hk
    have h2 : List.Pairwise
        (fun a b => finalName yi res vc a ≠ finalName yi res vc b) kept :=
      h1.imp (fun hab => finalName_inj yi res vc hres hvc _ _ hab)
    exact (List.pairwise_map).2 h2

/-- Witness: `rename_whitelist` on a small concrete file set. -/
theorem rename_whitelist_witness :
    ('.' ∉ (yresOf (some "1280x720")).data ∧
     '.' ∉ (optStr (some "vp9")).data ∧
     extOf "/d/foo.mkv" ≠ extOf "/d/foo.opus" ∧
     ((["/d/foo.mkv", "/d/foo.opus"].map extOf).Nodup)) ∧
    ((shipFilter ["/d/foo.opus", "/d/foo.en.vtt"]).1 =
      ["/d/foo.opus", "/d/foo.en.vtt"].filter (fun x => ptnMatch x) ∧
     (shipFilter ["/d/foo.opus", "/d/foo.en.vtt"]).2 =
      ["/d/foo.opus", "/d/foo.en.vtt"].filter (fun x => !ptnMatch x) ∧
     (∀ fp ∈ (shipFilter ["/d/foo.opus", "/d/foo.en.vtt"]).1,
       ptnMatch fp = true) ∧
     finalName "AAAAAAAAAAA" (some "1280x720") (some "vp9") "/d/foo.mkv" ≠
      finalName "AAAAAAAAAAA" (some "1280x720") (some "vp9") "/d/foo.opus" ∧
     (renameStage "AAAAAAAAAAA" (some "1280x720") (some "vp9")
       ["/d/foo.mkv", "/d/foo.opus"]).Nodup) :=
  ⟨⟨by decide, by decide, by decide, by decide⟩,
   rename_whitelist "AAAAAAAAAAA" (some "1280x720") (some "vp9")
     ["/d/foo.opus", "/d/foo.en.vtt"] ["/d/foo.mkv", "/d/foo.opus"]
     "/d/foo.mkv" "/d/foo.opus"
     (by decide) (by decide) (by decide) (by decide)⟩

/-- Counterexample to C2 as stated: two sibling files sharing the same
(whitelisted) extension both survive the filter and are renamed to the
same final name, so the renamed file set has a duplicate. -/
theorem rename_whitelist_cex :
    (shipFilter ["/d/foo.opus", "/d/foo.x.opus"]).1 =
      ["/d/foo.opus", "/d/foo.x.opus"] ∧
    renameStage "AAAAAAAAAAA" none none ["/d/foo.opus", "/d/foo.x.opus"] =
      ["AAAAAAAAAAA.opus", "AAAAAAAAAAA.opus"] ∧
    ¬ (renameStage "AAAAAAAAAAA" none none
        ["/d/foo.opus", "/d/foo.x.opus"]).Nodup := by
  refine ⟨by decide, by decide, by decide⟩

end RagPrep
